import Mathlib

/-!
Shallow embedding of the expiration-consistency subsystem of the
Shofyan/url-shortener repository: the lazy-validation read path
(`ShortenURLUseCase.GetLongURL` and its helpers), the background reaper
(`BackgroundURLCleanupService`), the postgres repository operations the
claims depend on (`FindExpiredURLs`, `IncrementVisitCount`), and the
admin manual-cleanup handler.

Go `time.Time` and `time.Duration` are modelled as `Int` nanoseconds;
`*time.Time` as `Option Int`.  `time.Now().After(t)` is `now > t` and
`time.Until(t)` is `t - now`.  Repository and cache side effects are
recorded in an explicit operation trace (`RepoOp`).
-/

namespace UrlShortener

/-- Go duration constants, in nanoseconds (`time.Second` etc.). -/
def second : Int := 1000000000

/-- Go `time.Minute` in nanoseconds. -/
def minute : Int := 60 * second

/-- Go `time.Hour` in nanoseconds. -/
def hour : Int := 60 * minute

/-- `repository.CacheEntry` (internal/domain/repository/cache_repository.go). -/
structure CacheEntry where
  longURL : String
  expiresAt : Option Int
  createdAt : Int
  isTombstone : Bool
  reason : String
deriving Repr, DecidableEq

/-- `CacheEntry.IsExpired`: `time.Now().After(*e.ExpiresAt)`, false when nil. -/
def CacheEntry.IsExpired (e : CacheEntry) (now : Int) : Bool :=
  match e.expiresAt with
  | none => false
  | some t => now > t

/-- `entity.URL` (internal/domain/entity/url.go). -/
structure URL where
  id : Int
  shortKey : String
  longURL : String
  createdAt : Int
  expiresAt : Option Int
  visitCount : Int
  lastAccessedAt : Option Int
deriving Repr, DecidableEq

/-- `URL.IsExpired`: `time.Now().After(*u.ExpiresAt)`, false when nil. -/
def URL.IsExpired (u : URL) (now : Int) : Bool :=
  match u.expiresAt with
  | none => false
  | some t => now > t

/-- `valueobject.MaxShortKeyLength`. -/
def MaxShortKeyLength : Nat := 12

/-- `valueobject.isAlphanumeric`: the Go loop rejects a character iff it is
outside a-z, A-Z, 0-9 and is neither a hyphen nor an underscore. -/
def isAlphanumeric (s : String) : Bool :=
  s.data.all fun c =>
    ! ((c < 'a' || c > 'z') && (c < 'A' || c > 'Z') && (c < '0' || c > '9')
        && c != '-' && c != '_')

/-- Typed errors of the use case and value-object layers
(`ErrURLNotFound`, `ErrURLExpired`, `valueobject.Err...`). -/
inductive UCErr
  | urlNotFound
  | urlExpired
  | customKeyExists
  | internalErr
  | emptyShortKey
  | invalidShortKey
deriving Repr, DecidableEq

/-- `valueobject.NewShortKey`: empty, over-long (byte length), or
non-alphanumeric keys are rejected. -/
def NewShortKey (key : String) : Except UCErr String :=
  if key = "" then .error .emptyShortKey
  else if key.utf8ByteSize > MaxShortKeyLength then .error .invalidShortKey
  else if ! isAlphanumeric key then .error .invalidShortKey
  else .ok key

/-- Trace of repository / cache operations performed by the use case.
`storeDelete` is `urlRepo.Delete`, `cacheDelete` is `cacheRepo.Delete`. -/
inductive RepoOp
  | getCacheEntry (key : String)
  | setTombstone (key : String) (reason : String) (ttl : Int)
  | setCacheEntry (key : String) (entry : CacheEntry) (ttl : Int)
  | cacheSet (key : String) (value : String) (ttl : Int)
  | findByShortKey (key : String)
  | incrementVisitCount (key : String)
  | storeDelete (key : String)
  | cacheDelete (key : String)
deriving Repr, DecidableEq

/-- `tryGetFromCache` (use case): `cacheResult` is what
`cacheRepo.GetCacheEntry` produced (`none` covers both an error and a nil
entry, which the Go code treats alike as a miss).  Returns the Go pair
`(longURL, err)` as an `Except` (where `.ok ""` is a cache miss) together
with the trace of cache operations. -/
def tryGetFromCache (now : Int) (key : String) (cacheResult : Option CacheEntry) :
    Except UCErr String × List RepoOp :=
  match cacheResult with
  | none => (.ok "", [.getCacheEntry key])
  | some e =>
    if e.isTombstone then
      match e.reason with
      | "expired" => (.error .urlExpired, [.getCacheEntry key])
      | "deleted" => (.error .urlNotFound, [.getCacheEntry key])
      | _ => (.error .urlNotFound, [.getCacheEntry key])
    else if e.IsExpired now then
      (.error .urlExpired, [.getCacheEntry key, .setTombstone key "expired" hour])
    else
      (.ok e.longURL, [.getCacheEntry key])

/-- `cacheValidURL` (use case): builds the structured cache entry, computes
the cache TTL (`defaultTTL` when the record never expires, otherwise
`time.Until(expiresAt)` raised to one minute when non-positive) and writes
it. -/
def cacheValidURL (now defaultTTL : Int) (key : String) (url : URL) :
    Except UCErr String × List RepoOp :=
  let longURL := url.longURL
  let entry : CacheEntry :=
    { longURL := longURL, expiresAt := url.expiresAt, createdAt := now,
      isTombstone := false, reason := "" }
  let cacheTTL :=
    match url.expiresAt with
    | none => defaultTTL
    | some t => if t - now ≤ 0 then minute else t - now
  (.ok longURL, [.setCacheEntry key entry cacheTTL])

/-- `handleCacheMiss` (use case): `dbResult` is what
`urlRepo.FindByShortKey` produced (`none` when it errored).  Not found
caches a "deleted" tombstone; an expired record caches an "expired"
tombstone and does not delete anything; a valid record is cached via
`cacheValidURL`. -/
def handleCacheMiss (now defaultTTL : Int) (key : String) (dbResult : Option URL) :
    Except UCErr String × List RepoOp :=
  match dbResult with
  | none => (.error .urlNotFound, [.findByShortKey key, .setTombstone key "deleted" hour])
  | some url =>
    if url.IsExpired now then
      (.error .urlExpired, [.findByShortKey key, .setTombstone key "expired" hour])
    else
      let r := cacheValidURL now defaultTTL key url
      (r.1, .findByShortKey key :: r.2)

/-- `shouldIncrementVisitCount` (use case): `lastClick` is the
`recentClicks` entry for the key.  A click within 3 seconds of the last
recorded one is skipped (and the map is left unchanged); otherwise the
click is recorded and counted. -/
def shouldIncrementVisitCount (now : Int) (lastClick : Option Int) :
    Bool × Option Int :=
  match lastClick with
  | some t => if now - t < 3 * second then (false, some t) else (true, some now)
  | none => (true, some now)

instance {ε α : Type} [DecidableEq ε] [DecidableEq α] : DecidableEq (Except ε α) := fun a b =>
  match a, b with
  | .ok a, .ok b =>
    if h : a = b then .isTrue (by rw [h]) else .isFalse (by simp [h])
  | .error a, .error b =>
    if h : a = b then .isTrue (by rw [h]) else .isFalse (by simp [h])
  | .ok _, .error _ => .isFalse (by simp)
  | .error _, .ok _ => .isFalse (by simp)

/-- Result of one `GetLongURL` call: the returned value or error, the trace
of repository/cache operations, and the updated `recentClicks` entry for
the key. -/
structure ResolveOutcome where
  result : Except UCErr String
  ops : List RepoOp
  lastClick : Option Int
deriving Repr, DecidableEq

/-- `GetLongURL` (use case, hybrid expiration strategy): validate the key,
try the cache, fall back to the store on a miss, and on any successful
resolution increment the visit count unless deduplicated. -/
def GetLongURL (now defaultTTL : Int) (keyStr : String)
    (cacheResult : Option CacheEntry) (dbResult : Option URL)
    (lastClick : Option Int) : ResolveOutcome :=
  match NewShortKey keyStr with
  | .error e => ⟨.error e, [], lastClick⟩
  | .ok key =>
    let c := tryGetFromCache now key cacheResult
    match c.1 with
    | .error e => ⟨.error e, c.2, lastClick⟩
    | .ok cached =>
      if cached ≠ "" then
        let s := shouldIncrementVisitCount now lastClick
        if s.1 then ⟨.ok cached, c.2 ++ [.incrementVisitCount key], s.2⟩
        else ⟨.ok cached, c.2, s.2⟩
      else
        let m := handleCacheMiss now defaultTTL key dbResult
        match m.1 with
        | .error e => ⟨.error e, c.2 ++ m.2, lastClick⟩
        | .ok longURL =>
          let s := shouldIncrementVisitCount now lastClick
          if s.1 then ⟨.ok longURL, c.2 ++ m.2 ++ [.incrementVisitCount key], s.2⟩
          else ⟨.ok longURL, c.2 ++ m.2, s.2⟩

/-- `cacheURL` (use case, shorten path): same TTL computation as
`cacheValidURL`; on a `SetCacheEntry` failure it falls back to the legacy
raw `Set` with the same TTL. -/
def cacheURL (now defaultTTL : Int) (key longURL : String)
    (expiresAt : Option Int) (setEntryFails : Bool) : List RepoOp :=
  let entry : CacheEntry :=
    { longURL := longURL, expiresAt := expiresAt, createdAt := now,
      isTombstone := false, reason := "" }
  let cacheTTL :=
    match expiresAt with
    | none => defaultTTL
    | some t => if t - now ≤ 0 then minute else t - now
  if setEntryFails then
    [.setCacheEntry key entry cacheTTL, .cacheSet key longURL cacheTTL]
  else
    [.setCacheEntry key entry cacheTTL]

/-- Sort key for `ORDER BY expires_at ASC`; only applied to rows whose
`expires_at` is non-null. -/
def expKey (u : URL) : Int := u.expiresAt.getD 0

/-- The `ORDER BY expires_at ASC` ordering on rows. -/
def expLE (a b : URL) : Prop := expKey a ≤ expKey b

instance : DecidableRel expLE := fun a b => Int.decLe (expKey a) (expKey b)

instance : IsTotal URL expLE := ⟨fun a b => le_total (expKey a) (expKey b)⟩

instance : IsTrans URL expLE := ⟨fun _ _ _ h h' => le_trans h h'⟩

/-- Row predicate of the `FindExpiredURLs` query:
`expires_at IS NOT NULL AND expires_at < $1`. -/
def isExpiredBefore (before : Int) (u : URL) : Bool :=
  match u.expiresAt with
  | some t => t < before
  | none => false

/-- `URLRepository.FindExpiredURLs` (postgres): embedding of
`SELECT ... WHERE expires_at IS NOT NULL AND expires_at < $1
ORDER BY expires_at ASC LIMIT $2` over a table of rows. -/
def FindExpiredURLs (store : List URL) (before : Int) (maxResults : Nat) : List URL :=
  ((store.filter (isExpiredBefore before)).insertionSort expLE).take maxResults

/-- `service.CleanupStats`; `averageCleanupMs` (a Go float64 EMA) is
modelled over `Rat`. -/
structure CleanupStats where
  lastCleanupTime : Int
  totalCleaned : Int
  lastBatchSize : Int
  successfulRuns : Int
  failedRuns : Int
  averageCleanupMs : Rat
  isRunning : Bool
deriving Repr, DecidableEq

/-- `service.CleanupConfig`. -/
structure CleanupConfig where
  cleanupInterval : Int
  batchSize : Nat
  bufferTime : Int
  maxCleanupDuration : Int
  enabled : Bool
deriving Repr, DecidableEq

/-- `service.DefaultCleanupConfig`. -/
def DefaultCleanupConfig : CleanupConfig :=
  { cleanupInterval := 15 * minute, batchSize := 1000, bufferTime := hour,
    maxCleanupDuration := 5 * minute, enabled := true }

/-- `updateStats` (BackgroundURLCleanupService): bumps the counters and the
exponential moving average of the cleanup duration. -/
def updateStats (s : CleanupStats) (now : Int) (cleaned : Int) (isErr : Bool)
    (durationNs : Int) : CleanupStats :=
  let currentMs : Rat := (durationNs : Rat) / 1000000
  { s with
    lastCleanupTime := now
    lastBatchSize := cleaned
    totalCleaned := s.totalCleaned + cleaned
    failedRuns := if isErr then s.failedRuns + 1 else s.failedRuns
    successfulRuns := if isErr then s.successfulRuns else s.successfulRuns + 1
    averageCleanupMs :=
      if s.averageCleanupMs = 0 then currentMs
      else (1 / 10 : Rat) * currentMs + (1 - 1 / 10 : Rat) * s.averageCleanupMs }

/-- Errors `CleanupExpiredBatch` can propagate (wrapping a store failure
from the find or the batch-delete step). -/
inductive CleanupErr
  | findFailed
  | deleteFailed
deriving Repr, DecidableEq

/-- Result of one `CleanupExpiredBatch` call: the `(int, error)` return
pair, the stats after the call, the keys deleted from the store, and the
cache keys whose best-effort eviction succeeded. -/
structure CleanupOutcome where
  cleaned : Nat
  err : Option CleanupErr
  stats : CleanupStats
  deletedKeys : List String
  evictedCacheKeys : List String
deriving Repr, DecidableEq

/-- `CleanupExpiredBatch` (BackgroundURLCleanupService): `findFails` and
`deleteFails` inject store errors; `cacheDeleteFails k` says the
best-effort cache eviction of key `k` fails (such failures are only
logged). `durationNs` stands for the measured `time.Since(start)`. -/
def CleanupExpiredBatch (now durationNs bufferTime : Int) (stats : CleanupStats)
    (store : List URL) (findFails deleteFails : Bool)
    (cacheDeleteFails : String → Bool) (batchSize : Nat) : CleanupOutcome :=
  let cutoffTime := now - bufferTime
  if findFails then
    { cleaned := 0, err := some .findFailed,
      stats := updateStats stats now 0 true durationNs,
      deletedKeys := [], evictedCacheKeys := [] }
  else
    let expiredURLs := FindExpiredURLs store cutoffTime batchSize
    if expiredURLs.isEmpty then
      { cleaned := 0, err := none,
        stats := updateStats stats now 0 false durationNs,
        deletedKeys := [], evictedCacheKeys := [] }
    else
      let cacheKeys := expiredURLs.map (fun u => u.shortKey)
      if deleteFails then
        { cleaned := 0, err := some .deleteFailed,
          stats := updateStats stats now 0 true durationNs,
          deletedKeys := [], evictedCacheKeys := [] }
      else
        { cleaned := expiredURLs.length, err := none,
          stats := updateStats stats now expiredURLs.length false durationNs,
          deletedKeys := cacheKeys,
          evictedCacheKeys := cacheKeys.filter (fun k => ! cacheDeleteFails k) }

/-- Reaper state: the atomic `running` flag (int32, modelled as `Bool`)
plus the stats guarded by `statsMutex`. -/
structure ReaperService where
  config : CleanupConfig
  stats : CleanupStats
  running : Bool
deriving Repr, DecidableEq

/-- `StartCleanup`: no-op when disabled; otherwise a compare-and-swap of
the running flag from 0 to 1, failing explicitly when already running. -/
def StartCleanup (s : ReaperService) : Option String × ReaperService :=
  if ! s.config.enabled then (none, s)
  else if s.running then (some "cleanup service is already running", s)
  else (none, { s with running := true, stats := { s.stats with isRunning := true } })

/-- `StopCleanup`: a compare-and-swap of the running flag from 1 to 0,
failing explicitly when not running. -/
def StopCleanup (s : ReaperService) : Option String × ReaperService :=
  if ! s.running then (some "cleanup service is not running", s)
  else (none, { s with running := false, stats := { s.stats with isRunning := false } })

/-- `URLRepository.IncrementVisitCount` (postgres): the single atomic
`UPDATE urls SET visit_count = visit_count + 1, last_accessed_at =
CURRENT_TIMESTAMP WHERE short_key = $1`; zero affected rows yields
`ErrNotFound`.  The table is modelled as a map keyed by the unique
`short_key` column. -/
def IncrementVisitCount (store : String → Option URL) (key : String) (now : Int) :
    (String → Option URL) × Except UCErr Unit :=
  match store key with
  | none => (store, .error .urlNotFound)
  | some u =>
    (fun k =>
      if k = key then
        some { u with visitCount := u.visitCount + 1, lastAccessedAt := some now }
      else store k,
     .ok ())

/-- N sequential applications of the atomic increment, one per timestamp in
`ts` (each interleaving of atomic single-row updates is equivalent to some
sequential order). -/
def incrementN (store : String → Option URL) (key : String) (ts : List Int) :
    String → Option URL :=
  ts.foldl (fun st t => (IncrementVisitCount st key t).1) store

/-- Batch-size adjustment of `TriggerManualCleanup` (url_handler.go):
`if req.BatchSize <= 0 || req.BatchSize > 10000 { req.BatchSize = 1000 }`. -/
def manualCleanupBatchSize (requested : Int) : Int :=
  if requested ≤ 0 || requested > 10000 then 1000 else requested

/-- Mathematical clamp of the requested batch size to the range 1–10000,
following the spec wording "clamped to a safe range, e.g. 1–10000"; to be
compared with `manualCleanupBatchSize`. -/
def clampedBatchSizeSpec (requested : Int) : Int :=
  max 1 (min requested 10000)

/-- TTL of the first structured cache write in a trace. -/
def firstSetEntryTTL (ops : List RepoOp) : Option Int :=
  match ops with
  | [] => none
  | (.setCacheEntry _ _ t) :: _ => some t
  | _ :: rest => firstSetEntryTTL rest

/-- Record-removing operations: `urlRepo.Delete` and `cacheRepo.Delete`. -/
def isDeleteOp : RepoOp → Bool
  | .storeDelete _ => true
  | .cacheDelete _ => true
  | _ => false

/-- Zeroed stats, as produced by `NewBackgroundURLCleanupService`. -/
def statsZero : CleanupStats :=
  { lastCleanupTime := 0, totalCleaned := 0, lastBatchSize := 0,
    successfulRuns := 0, failedRuns := 0, averageCleanupMs := 0, isRunning := false }

/-- Sample record with no expiration (a never-expiring link). -/
def urlNoExpiry : URL :=
  { id := 1, shortKey := "keep1", longURL := "https://example.com/a",
    createdAt := -(3 * hour), expiresAt := none, visitCount := 0,
    lastAccessedAt := none }

/-- Sample record whose expiration passed 30 minutes ago (relative to now = 0). -/
def urlExpired30m : URL :=
  { id := 2, shortKey := "old30m", longURL := "https://example.com/b",
    createdAt := -(3 * hour), expiresAt := some (-(30 * minute)), visitCount := 0,
    lastAccessedAt := none }

/-- Sample record whose expiration passed 2 hours ago (relative to now = 0). -/
def urlExpired2h : URL :=
  { id := 3, shortKey := "old2h", longURL := "https://example.com/c",
    createdAt := -(3 * hour), expiresAt := some (-(2 * hour)), visitCount := 0,
    lastAccessedAt := none }

/-- Sample valid record expiring 30 seconds from now = 0. -/
def urlFresh30s : URL :=
  { id := 4, shortKey := "fresh", longURL := "https://example.com/d",
    createdAt := -(3 * hour), expiresAt := some (30 * second), visitCount := 0,
    lastAccessedAt := none }

/-- Sample valid record expiring 100 hours from now = 0. -/
def urlFresh100h : URL :=
  { id := 5, shortKey := "far", longURL := "https://example.com/e",
    createdAt := -(3 * hour), expiresAt := some (100 * hour), visitCount := 0,
    lastAccessedAt := none }

/-- Sample valid non-tombstone cache entry with no expiration. -/
def entryFresh : CacheEntry :=
  { longURL := "https://example.com/a", expiresAt := none, createdAt := 0,
    isTombstone := false, reason := "" }

end UrlShortener

namespace UrlShortener

/-! ## Theorems -/

theorem incrementN_cons (store : String → Option URL) (key : String) (t : Int)
    (ts : List Int) :
    incrementN store key (t :: ts) = incrementN (IncrementVisitCount store key t).1 key ts :=
  rfl

theorem incrementN_at_key (key : String) (ts : List Int) :
    ∀ (store : String → Option URL) (u : URL), store key = some u →
      ∃ u', incrementN store key ts key = some u'
        ∧ u'.visitCount = u.visitCount + ts.length
        ∧ u'.shortKey = u.shortKey ∧ u'.longURL = u.longURL
        ∧ u'.expiresAt = u.expiresAt := by
  induction ts with
  | nil =>
    intro store u h
    exact ⟨u, h, by simp [incrementN], rfl, rfl, rfl⟩
  | cons t ts ih =>
    intro store u h
    have hstep : (IncrementVisitCount store key t).1 key
        = some { u with visitCount := u.visitCount + 1, lastAccessedAt := some t } := by
      simp [IncrementVisitCount, h]
    obtain ⟨u', h1, h2, h3, h4, h5⟩ := ih _ _ hstep
    refine ⟨u', by simpa [incrementN_cons] using h1, ?_, h3, h4, h5⟩
    simp only [List.length_cons] at h2 ⊢
    omega

theorem incrementN_frame (key : String) (ts : List Int) :
    ∀ (store : String → Option URL) (k : String), k ≠ key →
      incrementN store key ts k = store k := by
  induction ts with
  | nil => intro store k _; rfl
  | cons t ts ih =>
    intro store k hk
    rw [incrementN_cons, ih _ _ hk]
    unfold IncrementVisitCount
    cases h : store key <;> simp [hk]

/-- C8: each `IncrementVisitCount` call is a single atomic store update
(one `UPDATE` statement adding 1 and stamping `lastAccessedAt`, never a
read-modify-write pair), so N calls against an existing record leave its
`visitCount` at exactly the initial value plus N with zero lost updates,
preserve its identifying fields, and touch no other key. -/
theorem incrementVisitCount_exactly_n (store : String → Option URL) (key : String)
    (u : URL) (h : store key = some u) (ts : List Int) :
    (∃ u', incrementN store key ts key = some u'
        ∧ u'.visitCount = u.visitCount + ts.length
        ∧ u'.shortKey = u.shortKey ∧ u'.longURL = u.longURL
        ∧ u'.expiresAt = u.expiresAt)
    ∧ (∀ k, k ≠ key → incrementN store key ts k = store k)
    ∧ (∀ (st : String → Option URL) (t : Int) (v : URL), st key = some v →
        (IncrementVisitCount st key t).2 = .ok ()
        ∧ (IncrementVisitCount st key t).1 key
            = some { v with visitCount := v.visitCount + 1, lastAccessedAt := some t }) := by
  refine ⟨incrementN_at_key key ts store u h, fun k hk => incrementN_frame key ts store k hk, ?_⟩
  intro st t v hv
  constructor <;> simp [IncrementVisitCount, hv]

theorem incrementVisitCount_exactly_n_witness :
    ∃ u', incrementN (fun k => if k = "keep1" then some urlNoExpiry else none)
        "keep1" [second, 2 * second, 10 * second] "keep1" = some u'
      ∧ u'.visitCount = urlNoExpiry.visitCount + 3 := by
  obtain ⟨⟨u', h1, h2, _⟩, -, -⟩ :=
    incrementVisitCount_exactly_n (fun k => if k = "keep1" then some urlNoExpiry else none)
      "keep1" urlNoExpiry (by simp) [second, 2 * second, 10 * second]
  exact ⟨u', h1, h2⟩

/-- C9 counterexample: a requested batch size of 20000 is replaced by the
default 1000, not clamped to the range's upper bound 10000. -/
theorem manualCleanup_clamp_counterexample :
    manualCleanupBatchSize 20000 = 1000
    ∧ clampedBatchSizeSpec 20000 = 10000
    ∧ manualCleanupBatchSize 20000 ≠ clampedBatchSizeSpec 20000 := by
  refine ⟨by decide, by decide, by decide⟩

/-- C9 (amended): the handler passes a requested batch size in 1–10000
through unchanged, replaces any out-of-range value (including 0, negatives
and values above 10000) by the default 1000, and therefore the value
reaching `CleanupExpiredBatch` always lies in 1–10000. -/
theorem manualCleanupBatchSize_spec (r : Int) :
    (1 ≤ r → r ≤ 10000 → manualCleanupBatchSize r = r)
    ∧ ((r < 1 ∨ 10000 < r) → manualCleanupBatchSize r = 1000)
    ∧ 1 ≤ manualCleanupBatchSize r ∧ manualCleanupBatchSize r ≤ 10000 := by
  unfold manualCleanupBatchSize
  split
  case isTrue h =>
    rw [Bool.or_eq_true, decide_eq_true_eq, decide_eq_true_eq] at h
    exact ⟨fun h1 h2 => by omega, fun _ => rfl, by omega, by omega⟩
  case isFalse h =>
    rw [Bool.or_eq_true, decide_eq_true_eq, decide_eq_true_eq] at h
    push_neg at h
    exact ⟨fun _ _ => rfl, fun hc => by omega, by omega, by omega⟩

theorem manualCleanupBatchSize_spec_witness :
    manualCleanupBatchSize 5000 = 5000
    ∧ (1 ≤ manualCleanupBatchSize 5000 ∧ manualCleanupBatchSize 5000 ≤ 10000) :=
  ⟨(manualCleanupBatchSize_spec 5000).1 (by decide) (by decide),
   (manualCleanupBatchSize_spec 5000).2.2⟩

/-- C7: with cleanup enabled, `StartCleanup` succeeds exactly from the
stopped state and `StopCleanup` exactly from the running state; a second
start while running and a second stop while stopped each fail with an
explicit error and return the service with flag and stats unchanged. -/
theorem startStopCleanup_cas (s : ReaperService) (henabled : s.config.enabled = true) :
    ((StartCleanup s).1 = none ↔ s.running = false)
    ∧ ((StopCleanup s).1 = none ↔ s.running = true)
    ∧ (s.running = true →
        StartCleanup s = (some "cleanup service is already running", s))
    ∧ (s.running = false →
        StopCleanup s = (some "cleanup service is not running", s)) := by
  unfold StartCleanup StopCleanup
  cases hr : s.running <;> simp [henabled, hr]

theorem startStopCleanup_cas_witness :
    (StartCleanup { config := DefaultCleanupConfig, stats := statsZero, running := false }).1 = none
    ∧ StopCleanup { config := DefaultCleanupConfig, stats := statsZero, running := false }
        = (some "cleanup service is not running",
           { config := DefaultCleanupConfig, stats := statsZero, running := false }) :=
  ⟨((startStopCleanup_cas
      { config := DefaultCleanupConfig, stats := statsZero, running := false } rfl).1).mpr rfl,
   (startStopCleanup_cas
      { config := DefaultCleanupConfig, stats := statsZero, running := false } rfl).2.2.2 rfl⟩

theorem cleanupBatch_deletedKeys (now durationNs bufferTime : Int) (stats : CleanupStats)
    (store : List URL) (ff df : Bool) (cf : String → Bool) (bs : Nat) :
    (CleanupExpiredBatch now durationNs bufferTime stats store ff df cf bs).deletedKeys = []
    ∨ (CleanupExpiredBatch now durationNs bufferTime stats store ff df cf bs).deletedKeys
        = (FindExpiredURLs store (now - bufferTime) bs).map (fun u => u.shortKey) := by
  unfold CleanupExpiredBatch
  cases ff <;> cases df <;>
    by_cases hemp : (FindExpiredURLs store (now - bufferTime) bs).isEmpty <;>
      simp [hemp]

theorem mem_findExpiredURLs (store : List URL) (c : Int) (bs : Nat) (u : URL)
    (h : u ∈ FindExpiredURLs store c bs) : isExpiredBefore c u = true := by
  unfold FindExpiredURLs at h
  have h1 := List.take_subset bs _ h
  rw [List.mem_insertionSort] at h1
  exact (List.mem_filter.mp h1).2

/-- C10: `FindExpiredURLs` never returns a record whose `expiresAt` is
null (the query requires `expires_at IS NOT NULL`), so a never-expiring
link is never a cleanup candidate and — as long as its short key is not
shared with another row — its key is never in the reaper's deleted set,
for any cutoff and batch size. -/
theorem cleanup_never_touches_null_expiry (store : List URL) (c : Int) (bs : Nat) :
    (∀ u ∈ FindExpiredURLs store c bs, u.expiresAt ≠ none)
    ∧ (∀ u : URL, u.expiresAt = none → u ∉ FindExpiredURLs store c bs)
    ∧ (∀ (now durationNs bufferTime : Int) (stats : CleanupStats)
        (ff df : Bool) (cf : String → Bool),
        ∀ k ∈ (CleanupExpiredBatch now durationNs bufferTime stats store ff df cf bs).deletedKeys,
          ∃ v ∈ store, v.shortKey = k ∧ v.expiresAt ≠ none)
    ∧ (∀ u : URL, u.expiresAt = none →
        (∀ v ∈ store, v.shortKey = u.shortKey → v = u) →
        ∀ (now durationNs bufferTime : Int) (stats : CleanupStats)
          (ff df : Bool) (cf : String → Bool),
          u.shortKey ∉
            (CleanupExpiredBatch now durationNs bufferTime stats store ff df cf bs).deletedKeys) := by
  have hmem : ∀ u ∈ FindExpiredURLs store c bs, u.expiresAt ≠ none := by
    intro u hu
    have := mem_findExpiredURLs store c bs u hu
    unfold isExpiredBefore at this
    cases h : u.expiresAt <;> simp [h] at this ⊢
  have hdel : ∀ (now durationNs bufferTime : Int) (stats : CleanupStats)
      (ff df : Bool) (cf : String → Bool),
      ∀ k ∈ (CleanupExpiredBatch now durationNs bufferTime stats store ff df cf bs).deletedKeys,
        ∃ v ∈ store, v.shortKey = k ∧ v.expiresAt ≠ none := by
    intro now durationNs bufferTime stats ff df cf k hk
    rcases cleanupBatch_deletedKeys now durationNs bufferTime stats store ff df cf bs with
      hd | hd
    · rw [hd] at hk
      simp at hk
    · rw [hd] at hk
      simp only [List.mem_map] at hk
      obtain ⟨v, hv, rfl⟩ := hk
      have hv1 := mem_findExpiredURLs store _ bs v hv
      have hv2 : v ∈ store := by
        unfold FindExpiredURLs at hv
        have := List.take_subset bs _ hv
        rw [List.mem_insertionSort] at this
        exact (List.mem_filter.mp this).1
      refine ⟨v, hv2, rfl, ?_⟩
      unfold isExpiredBefore at hv1
      cases h : v.expiresAt <;> simp [h] at hv1 ⊢
  refine ⟨hmem, fun u hu hmem' => ?_, hdel, ?_⟩
  · have := hmem u hmem'
    exact this hu
  · intro u hu huniq now durationNs bufferTime stats ff df cf hk
    obtain ⟨v, hv, hveq, hvne⟩ := hdel now durationNs bufferTime stats ff df cf _ hk
    have := huniq v hv hveq
    rw [this] at hvne
    exact hvne hu

theorem cleanup_never_touches_null_expiry_witness :
    urlNoExpiry ∉ FindExpiredURLs [urlNoExpiry, urlExpired2h] (-hour) 1000 :=
  (cleanup_never_touches_null_expiry [urlNoExpiry, urlExpired2h] (-hour) 1000).2.1
    urlNoExpiry rfl

/-- C3 counterexample: for a record valid another 30 seconds the read path
writes a 30-second cache TTL — below the claimed one-minute floor — and
for a record valid another 100 hours it writes a 100-hour TTL, above the
claimed default ceiling of 24 hours (the use case's `defaultTTL`). -/
theorem cacheTTL_floor_ceiling_counterexample :
    firstSetEntryTTL (cacheValidURL 0 (24 * hour) "fresh" urlFresh30s).2
        = some (30 * second)
    ∧ ¬ minute ≤ 30 * second
    ∧ firstSetEntryTTL (cacheValidURL 0 (24 * hour) "far" urlFresh100h).2
        = some (100 * hour)
    ∧ 24 * hour < 100 * hour
    ∧ min (100 * hour) (24 * hour) ≠ 100 * hour := by
  exact ⟨by decide, by decide, by decide, by decide, by decide⟩

/-- C3 (amended): the cache TTL written for a record found valid (and
likewise on shorten) is `time.Until(expiresAt)` when the record has an
expiry and that duration is positive, one minute when it is non-positive,
and the caller's default TTL when the record never expires; consequently
the TTL handed to the cache is always positive (given a positive default),
but it is not capped at the default ceiling and may be below one minute. -/
theorem cacheValidURL_ttl (now defaultTTL : Int) (key : String) (u : URL)
    (hd : 0 < defaultTTL) :
    (u.expiresAt = none →
        firstSetEntryTTL (cacheValidURL now defaultTTL key u).2 = some defaultTTL)
    ∧ (∀ e, u.expiresAt = some e → 0 < e - now →
        firstSetEntryTTL (cacheValidURL now defaultTTL key u).2 = some (e - now))
    ∧ (∀ e, u.expiresAt = some e → e - now ≤ 0 →
        firstSetEntryTTL (cacheValidURL now defaultTTL key u).2 = some minute)
    ∧ (∀ t, firstSetEntryTTL (cacheValidURL now defaultTTL key u).2 = some t → 0 < t)
    ∧ (∀ (lurl : String) (fails : Bool),
        firstSetEntryTTL (cacheURL now defaultTTL key lurl u.expiresAt fails)
          = firstSetEntryTTL (cacheValidURL now defaultTTL key u).2) := by
  have hmin : (0 : Int) < minute := by decide
  refine ⟨?_, ?_, ?_, ?_, ?_⟩
  · intro h
    simp [cacheValidURL, firstSetEntryTTL, h]
  · intro e he hpos
    simp [cacheValidURL, firstSetEntryTTL, he]
    omega
  · intro e he hnp
    simp [cacheValidURL, firstSetEntryTTL, he, hnp]
  · intro t ht
    cases he : u.expiresAt with
    | none => simp [cacheValidURL, firstSetEntryTTL, he] at ht; omega
    | some e =>
      by_cases hnp : e - now ≤ 0
      · simp [cacheValidURL, firstSetEntryTTL, he, hnp] at ht
        omega
      · simp [cacheValidURL, firstSetEntryTTL, he, hnp] at ht
        omega
  · intro lurl fails
    cases he : u.expiresAt <;> cases fails <;>
      simp [cacheValidURL, cacheURL, firstSetEntryTTL, he]

theorem cacheValidURL_ttl_witness :
    firstSetEntryTTL (cacheValidURL 0 (24 * hour) "fresh" urlFresh30s).2
      = some (30 * second - 0) :=
  (cacheValidURL_ttl 0 (24 * hour) "fresh" urlFresh30s (by decide)).2.1
    (30 * second) rfl (by decide)

/-- C6: a store failure in the find step or the batch-delete step makes
`CleanupExpiredBatch` return that (wrapped) error with a cleaned count of
0, counting the run in `failedRuns` and leaving `totalCleaned` unchanged;
best-effort cache-eviction failures after a successful delete do not
affect the returned count, the error, the recorded stats or the deleted
keys, and the run counts as successful with the full batch size. -/
theorem cleanupBatch_error_semantics (now durationNs bufferTime : Int)
    (stats : CleanupStats) (store : List URL) (cf cf' : String → Bool) (bs : Nat) :
    (∀ df : Bool,
      (CleanupExpiredBatch now durationNs bufferTime stats store true df cf bs).cleaned = 0
      ∧ (CleanupExpiredBatch now durationNs bufferTime stats store true df cf bs).err
          = some .findFailed
      ∧ (CleanupExpiredBatch now durationNs bufferTime stats store true df cf bs).stats.failedRuns
          = stats.failedRuns + 1
      ∧ (CleanupExpiredBatch now durationNs bufferTime stats store true df cf bs).stats.totalCleaned
          = stats.totalCleaned
      ∧ (CleanupExpiredBatch now durationNs bufferTime stats store true df cf bs).stats.successfulRuns
          = stats.successfulRuns
      ∧ (CleanupExpiredBatch now durationNs bufferTime stats store true df cf bs).deletedKeys = [])
    ∧ ((FindExpiredURLs store (now - bufferTime) bs).isEmpty = false →
      (CleanupExpiredBatch now durationNs bufferTime stats store false true cf bs).cleaned = 0
      ∧ (CleanupExpiredBatch now durationNs bufferTime stats store false true cf bs).err
          = some .deleteFailed
      ∧ (CleanupExpiredBatch now durationNs bufferTime stats store false true cf bs).stats.failedRuns
          = stats.failedRuns + 1
      ∧ (CleanupExpiredBatch now durationNs bufferTime stats store false true cf bs).stats.totalCleaned
          = stats.totalCleaned
      ∧ (CleanupExpiredBatch now durationNs bufferTime stats store false true cf bs).deletedKeys = [])
    ∧ ((CleanupExpiredBatch now durationNs bufferTime stats store false false cf bs).cleaned
          = (CleanupExpiredBatch now durationNs bufferTime stats store false false cf' bs).cleaned
      ∧ (CleanupExpiredBatch now durationNs bufferTime stats store false false cf bs).err
          = (CleanupExpiredBatch now durationNs bufferTime stats store false false cf' bs).err
      ∧ (CleanupExpiredBatch now durationNs bufferTime stats store false false cf bs).stats
          = (CleanupExpiredBatch now durationNs bufferTime stats store false false cf' bs).stats
      ∧ (CleanupExpiredBatch now durationNs bufferTime stats store false false cf bs).deletedKeys
          = (CleanupExpiredBatch now durationNs bufferTime stats store false false cf' bs).deletedKeys)
    ∧ ((FindExpiredURLs store (now - bufferTime) bs).isEmpty = false →
      (CleanupExpiredBatch now durationNs bufferTime stats store false false cf bs).err = none
      ∧ (CleanupExpiredBatch now durationNs bufferTime stats store false false cf bs).cleaned
          = (FindExpiredURLs store (now - bufferTime) bs).length
      ∧ (CleanupExpiredBatch now durationNs bufferTime stats store false false cf bs).stats.successfulRuns
          = stats.successfulRuns + 1
      ∧ (CleanupExpiredBatch now durationNs bufferTime stats store false false cf bs).stats.totalCleaned
          = stats.totalCleaned + (FindExpiredURLs store (now - bufferTime) bs).length) := by
  refine ⟨?_, ?_, ?_, ?_⟩
  · intro df
    refine ⟨rfl, rfl, ?_, ?_, ?_, rfl⟩ <;> simp [CleanupExpiredBatch, updateStats]
  · intro hne
    refine ⟨?_, ?_, ?_, ?_, ?_⟩ <;> simp [CleanupExpiredBatch, updateStats, hne]
  · by_cases hemp : (FindExpiredURLs store (now - bufferTime) bs).isEmpty <;>
      refine ⟨?_, ?_, ?_, ?_⟩ <;> simp [CleanupExpiredBatch, updateStats, hemp]
  · intro hne
    refine ⟨?_, ?_, ?_, ?_⟩ <;> simp [CleanupExpiredBatch, updateStats, hne]

theorem cleanupBatch_error_semantics_witness :
    (FindExpiredURLs [urlExpired2h] (0 - hour) 1000).isEmpty = false
    ∧ (CleanupExpiredBatch 0 0 hour statsZero [urlExpired2h] false true
        (fun _ => false) 1000).err = some .deleteFailed
    ∧ (CleanupExpiredBatch 0 0 hour statsZero [urlExpired2h] false true
        (fun _ => false) 1000).stats.failedRuns = statsZero.failedRuns + 1 := by
  have h := (cleanupBatch_error_semantics 0 0 hour statsZero [urlExpired2h]
    (fun _ => false) (fun _ => false) 1000).2.1 (by decide)
  exact ⟨by decide, h.2.1, h.2.2.1⟩

/-- C4: the candidate set of a `CleanupExpiredBatch(batchSize)` run is
exactly the store's records with non-null `expiresAt` strictly earlier
than `now - bufferTime` (sound, and complete whenever they fit in the
batch), ordered oldest `expiresAt` first and limited to `batchSize`; with
`bufferTime` one hour, a record expired 30 minutes ago is not a candidate
while one expired 2 hours ago is; and an empty candidate set makes the
call return 0 with no error after recording a successful run in the
stats. -/
theorem cleanupBatch_candidate_set (now durationNs bufferTime : Int)
    (stats : CleanupStats) (store : List URL) (cf : String → Bool) (bs : Nat) :
    (∀ u ∈ FindExpiredURLs store (now - bufferTime) bs,
        ∃ t, u.expiresAt = some t ∧ t < now - bufferTime)
    ∧ ((store.filter (isExpiredBefore (now - bufferTime))).length ≤ bs →
        ∀ u ∈ store, isExpiredBefore (now - bufferTime) u = true →
          u ∈ FindExpiredURLs store (now - bufferTime) bs)
    ∧ List.Sorted expLE (FindExpiredURLs store (now - bufferTime) bs)
    ∧ (FindExpiredURLs store (now - bufferTime) bs).length ≤ bs
    ∧ urlExpired30m ∉ FindExpiredURLs [urlExpired30m, urlExpired2h] (0 - hour) 1000
    ∧ urlExpired2h ∈ FindExpiredURLs [urlExpired30m, urlExpired2h] (0 - hour) 1000
    ∧ (FindExpiredURLs store (now - bufferTime) bs = [] →
        CleanupExpiredBatch now durationNs bufferTime stats store false false cf bs
          = { cleaned := 0, err := none,
              stats := updateStats stats now 0 false durationNs,
              deletedKeys := [], evictedCacheKeys := [] }) := by
  refine ⟨?_, ?_, ?_, ?_, by decide, by decide, ?_⟩
  · intro u hu
    have := mem_findExpiredURLs store (now - bufferTime) bs u hu
    unfold isExpiredBefore at this
    cases h : u.expiresAt with
    | none => rw [h] at this; simp at this
    | some t =>
      rw [h] at this
      simp only [decide_eq_true_eq] at this
      exact ⟨t, rfl, this⟩
  · intro hlen u hu hpred
    have hperm := List.perm_insertionSort expLE (store.filter (isExpiredBefore (now - bufferTime)))
    unfold FindExpiredURLs
    rw [List.take_of_length_le (by rw [hperm.length_eq]; exact hlen)]
    exact (List.mem_insertionSort expLE).mpr (List.mem_filter.mpr ⟨hu, hpred⟩)
  · exact List.Pairwise.sublist (List.take_sublist bs _)
      (List.sorted_insertionSort expLE _)
  · unfold FindExpiredURLs
    rw [List.length_take]
    exact min_le_left _ _
  · intro h
    simp [CleanupExpiredBatch, h]

theorem cleanupBatch_candidate_set_witness :
    urlExpired2h ∈ FindExpiredURLs [urlExpired2h] (0 - hour) 5 :=
  (cleanupBatch_candidate_set 0 0 hour statsZero [urlExpired2h] (fun _ => false) 5).2.1
    (by decide) urlExpired2h (by decide) (by decide)

theorem tryGetFromCache_no_delete (now : Int) (key : String) (cache : Option CacheEntry) :
    ∀ op ∈ (tryGetFromCache now key cache).2, isDeleteOp op = false := by
  intro op hop
  unfold tryGetFromCache at hop
  repeat' split at hop
  all_goals simp at hop
  all_goals
    first
    | (rcases hop with h | h <;> simp [h, isDeleteOp])
    | simp [hop, isDeleteOp]

theorem handleCacheMiss_no_delete (now dTTL : Int) (key : String) (db : Option URL) :
    ∀ op ∈ (handleCacheMiss now dTTL key db).2, isDeleteOp op = false := by
  intro op hop
  unfold handleCacheMiss cacheValidURL at hop
  repeat' split at hop
  all_goals simp at hop
  all_goals rcases hop with h | h <;> simp [h, isDeleteOp]

theorem getLongURL_ops_shape (now dTTL : Int) (keyStr : String)
    (cache : Option CacheEntry) (db : Option URL) (lc : Option Int) :
    (GetLongURL now dTTL keyStr cache db lc).ops = []
    ∨ ∃ key,
        (GetLongURL now dTTL keyStr cache db lc).ops = (tryGetFromCache now key cache).2
        ∨ (GetLongURL now dTTL keyStr cache db lc).ops
            = (tryGetFromCache now key cache).2 ++ [.incrementVisitCount key]
        ∨ (GetLongURL now dTTL keyStr cache db lc).ops
            = (tryGetFromCache now key cache).2 ++ (handleCacheMiss now dTTL key db).2
        ∨ (GetLongURL now dTTL keyStr cache db lc).ops
            = (tryGetFromCache now key cache).2 ++ (handleCacheMiss now dTTL key db).2
                ++ [.incrementVisitCount key] := by
  cases hk : NewShortKey keyStr with
  | error e => exact Or.inl (by simp [GetLongURL, hk])
  | ok key =>
    refine Or.inr ⟨key, ?_⟩
    simp only [GetLongURL, hk]
    cases hc : (tryGetFromCache now key cache).1 with
    | error e => simp
    | ok cached =>
      by_cases hne : cached = ""
      · subst hne
        simp only [ne_eq, not_true_eq_false, if_false]
        cases hm : (handleCacheMiss now dTTL key db).1 with
        | error e => simp
        | ok l =>
          by_cases hs : (shouldIncrementVisitCount now lc).1 = true <;> simp [hs]
      · by_cases hs : (shouldIncrementVisitCount now lc).1 = true <;> simp [hne, hs]

theorem getLongURL_no_delete_op (now dTTL : Int) (keyStr : String)
    (cache : Option CacheEntry) (db : Option URL) (lc : Option Int) :
    ∀ op ∈ (GetLongURL now dTTL keyStr cache db lc).ops, isDeleteOp op = false := by
  intro op hop
  rcases getLongURL_ops_shape now dTTL keyStr cache db lc with h | ⟨key, h | h | h | h⟩ <;>
    rw [h] at hop
  · simp at hop
  · exact tryGetFromCache_no_delete now key cache op hop
  · rcases List.mem_append.mp hop with h1 | h1
    · exact tryGetFromCache_no_delete now key cache op h1
    · simp at h1; simp [h1, isDeleteOp]
  · rcases List.mem_append.mp hop with h1 | h1
    · exact tryGetFromCache_no_delete now key cache op h1
    · exact handleCacheMiss_no_delete now dTTL key db op h1
  · rcases List.mem_append.mp hop with h1 | h1
    · rcases List.mem_append.mp h1 with h2 | h2
      · exact tryGetFromCache_no_delete now key cache op h2
      · exact handleCacheMiss_no_delete now dTTL key db op h2
    · simp at h1; simp [h1, isDeleteOp]

/-- C1: resolving a key whose store record exists but is expired — whether
the cache has no entry or a stale non-tombstone entry mirroring the
record's expiry — fails with `Expired` and writes an "expired" tombstone;
and no `GetLongURL` call, on any input whatsoever, ever emits the store's
`Delete` (or the cache's `Delete`): physical deletion is left entirely to
the reaper. -/
theorem getLongURL_expired_lazy (now dTTL e : Int) (keyStr key : String) (url : URL)
    (cache : Option CacheEntry) (lc : Option Int)
    (hk : NewShortKey keyStr = .ok key)
    (he : url.expiresAt = some e) (hpast : e < now)
    (hc : cache = none
      ∨ ∃ ce, cache = some ce ∧ ce.isTombstone = false ∧ ce.expiresAt = some e) :
    (GetLongURL now dTTL keyStr cache (some url) lc).result = .error .urlExpired
    ∧ RepoOp.setTombstone key "expired" hour
        ∈ (GetLongURL now dTTL keyStr cache (some url) lc).ops
    ∧ ∀ (cache2 : Option CacheEntry) (db2 : Option URL) (lc2 : Option Int) (k : String),
        RepoOp.storeDelete k ∉ (GetLongURL now dTTL keyStr cache2 db2 lc2).ops
        ∧ RepoOp.cacheDelete k ∉ (GetLongURL now dTTL keyStr cache2 db2 lc2).ops := by
  have hnodel : ∀ (cache2 : Option CacheEntry) (db2 : Option URL) (lc2 : Option Int)
      (k : String),
      RepoOp.storeDelete k ∉ (GetLongURL now dTTL keyStr cache2 db2 lc2).ops
      ∧ RepoOp.cacheDelete k ∉ (GetLongURL now dTTL keyStr cache2 db2 lc2).ops := by
    intro cache2 db2 lc2 k
    constructor <;> intro hmem <;>
      simpa [isDeleteOp] using getLongURL_no_delete_op now dTTL keyStr cache2 db2 lc2 _ hmem
  have hexp : url.IsExpired now = true := by
    simp [URL.IsExpired, he]
    omega
  rcases hc with rfl | ⟨ce, rfl, hts, hee⟩
  · have h1 : tryGetFromCache now key none = (.ok "", [.getCacheEntry key]) := rfl
    have h2 : handleCacheMiss now dTTL key (some url)
        = (.error .urlExpired, [.findByShortKey key, .setTombstone key "expired" hour]) := by
      simp [handleCacheMiss, hexp]
    refine ⟨?_, ?_, hnodel⟩ <;> simp [GetLongURL, hk, h1, h2]
  · have hce : ce.IsExpired now = true := by
      simp [CacheEntry.IsExpired, hee]
      omega
    have h1 : tryGetFromCache now key (some ce)
        = (.error .urlExpired, [.getCacheEntry key, .setTombstone key "expired" hour]) := by
      simp [tryGetFromCache, hts, hce]
    refine ⟨?_, ?_, hnodel⟩ <;> simp [GetLongURL, hk, h1]

theorem getLongURL_expired_lazy_witness :
    (GetLongURL 0 (24 * hour) "old2h" none (some urlExpired2h) none).result
        = .error .urlExpired
    ∧ RepoOp.setTombstone "old2h" "expired" hour
        ∈ (GetLongURL 0 (24 * hour) "old2h" none (some urlExpired2h) none).ops := by
  have h := getLongURL_expired_lazy 0 (24 * hour) (-(2 * hour)) "old2h" "old2h"
    urlExpired2h none none (by decide) rfl (by decide) (Or.inl rfl)
  exact ⟨h.1, h.2.1⟩

/-- C2: a present cache entry is resolved by this case analysis: a
tombstone with reason "expired" fails with `Expired`; a tombstone with any
other reason fails with `NotFound`; a non-tombstone entry whose
`expiresAt` is before the current time gets an "expired" tombstone with a
bounded one-hour TTL written and fails with `Expired`; otherwise the
stored long URL is returned and the store is never consulted. -/
theorem resolve_cache_entry_cases (now dTTL : Int) (key : String) (e : CacheEntry) :
    (e.isTombstone = true → e.reason = "expired" →
        tryGetFromCache now key (some e) = (.error .urlExpired, [.getCacheEntry key]))
    ∧ (e.isTombstone = true → e.reason ≠ "expired" →
        tryGetFromCache now key (some e) = (.error .urlNotFound, [.getCacheEntry key]))
    ∧ (e.isTombstone = false → e.IsExpired now = true →
        tryGetFromCache now key (some e)
          = (.error .urlExpired, [.getCacheEntry key, .setTombstone key "expired" hour]))
    ∧ (e.isTombstone = false → e.IsExpired now = false →
        tryGetFromCache now key (some e) = (.ok e.longURL, [.getCacheEntry key]))
    ∧ (e.isTombstone = false → e.IsExpired now = false → e.longURL ≠ "" →
        ∀ (keyStr : String) (db : Option URL) (lc : Option Int),
          NewShortKey keyStr = .ok key →
            (GetLongURL now dTTL keyStr (some e) db lc).result = .ok e.longURL
            ∧ ∀ k, RepoOp.findByShortKey k ∉ (GetLongURL now dTTL keyStr (some e) db lc).ops) := by
  refine ⟨?_, ?_, ?_, ?_, ?_⟩
  · intro ht hr
    simp [tryGetFromCache, ht, hr]
  · intro ht hr
    simp only [tryGetFromCache, ht, if_true]
    split <;> simp_all
  · intro ht hexp
    simp [tryGetFromCache, ht, hexp]
  · intro ht hexp
    simp [tryGetFromCache, ht, hexp]
  · intro ht hexp hne keyStr db lc hk
    have h1 : tryGetFromCache now key (some e) = (.ok e.longURL, [.getCacheEntry key]) := by
      simp [tryGetFromCache, ht, hexp]
    constructor
    · by_cases hs : (shouldIncrementVisitCount now lc).1 = true <;>
        simp [GetLongURL, hk, h1, hne, hs]
    · intro k hmem
      by_cases hs : (shouldIncrementVisitCount now lc).1 = true <;>
        simp [GetLongURL, hk, h1, hne, hs] at hmem

theorem resolve_cache_entry_cases_witness :
    (GetLongURL 0 (24 * hour) "keep1" (some entryFresh) none none).result
      = .ok entryFresh.longURL :=
  ((resolve_cache_entry_cases 0 (24 * hour) "keep1" entryFresh).2.2.2.2 rfl rfl
    (by decide) "keep1" none none (by decide)).1

/-- C5: on a successful resolution the visit-count increment is invoked
exactly once, and a second resolution of the same key within the 3-second
window after the first recorded click skips the increment entirely, while
a second resolution at or beyond the window increments exactly once and
re-records the click. -/
theorem visitCount_dedup (t1 t2 dTTL : Int) (keyStr key : String) (e : CacheEntry)
    (db : Option URL)
    (hk : NewShortKey keyStr = .ok key)
    (hts : e.isTombstone = false) (hx1 : e.IsExpired t1 = false)
    (hx2 : e.IsExpired t2 = false) (hne : e.longURL ≠ "") :
    ((GetLongURL t1 dTTL keyStr (some e) db none).ops.count
        (RepoOp.incrementVisitCount key) = 1
      ∧ (GetLongURL t1 dTTL keyStr (some e) db none).lastClick = some t1)
    ∧ (t2 - t1 < 3 * second →
        (GetLongURL t2 dTTL keyStr (some e) db
            (GetLongURL t1 dTTL keyStr (some e) db none).lastClick).ops.count
          (RepoOp.incrementVisitCount key) = 0
        ∧ (GetLongURL t2 dTTL keyStr (some e) db
            (GetLongURL t1 dTTL keyStr (some e) db none).lastClick).lastClick = some t1)
    ∧ (3 * second ≤ t2 - t1 →
        (GetLongURL t2 dTTL keyStr (some e) db
            (GetLongURL t1 dTTL keyStr (some e) db none).lastClick).ops.count
          (RepoOp.incrementVisitCount key) = 1
        ∧ (GetLongURL t2 dTTL keyStr (some e) db
            (GetLongURL t1 dTTL keyStr (some e) db none).lastClick).lastClick = some t2) := by
  have h1 : tryGetFromCache t1 key (some e) = (.ok e.longURL, [.getCacheEntry key]) := by
    simp [tryGetFromCache, hts, hx1]
  have h2 : tryGetFromCache t2 key (some e) = (.ok e.longURL, [.getCacheEntry key]) := by
    simp [tryGetFromCache, hts, hx2]
  have hfirst : GetLongURL t1 dTTL keyStr (some e) db none
      = ⟨.ok e.longURL, [.getCacheEntry key, .incrementVisitCount key], some t1⟩ := by
    simp [GetLongURL, hk, h1, hne, shouldIncrementVisitCount]
  refine ⟨⟨?_, ?_⟩, ?_, ?_⟩
  · rw [hfirst]
    simp [List.count_cons]
  · rw [hfirst]
  · intro hlt
    have hs2 : shouldIncrementVisitCount t2 (some t1) = (false, some t1) := by
      simp [shouldIncrementVisitCount, hlt]
    have hsecond : GetLongURL t2 dTTL keyStr (some e) db (some t1)
        = ⟨.ok e.longURL, [.getCacheEntry key], some t1⟩ := by
      simp [GetLongURL, hk, h2, hne, hs2]
    rw [hfirst, hsecond]
    constructor
    · simp [List.count_cons]
    · rfl
  · intro hge
    have hnl : ¬ t2 - t1 < 3 * second := by omega
    have hs2 : shouldIncrementVisitCount t2 (some t1) = (true, some t2) := by
      simp [shouldIncrementVisitCount, hnl]
    have hsecond : GetLongURL t2 dTTL keyStr (some e) db (some t1)
        = ⟨.ok e.longURL, [.getCacheEntry key, .incrementVisitCount key], some t2⟩ := by
      simp [GetLongURL, hk, h2, hne, hs2]
    rw [hfirst, hsecond]
    constructor
    · simp [List.count_cons]
    · rfl

theorem visitCount_dedup_witness :
    (GetLongURL second (24 * hour) "keep1" (some entryFresh) none
        (GetLongURL 0 (24 * hour) "keep1" (some entryFresh) none none).lastClick).ops.count
      (RepoOp.incrementVisitCount "keep1") = 0 :=
  ((visitCount_dedup 0 second (24 * hour) "keep1" "keep1" entryFresh none
      (by decide) rfl rfl rfl (by decide)).2.1 (by decide)).1

end UrlShortener
